import Mathlib

/-!
Shallow embedding of the reconciliation engine of the giterop/unfurl repository
(src/giterop/runtime.py, src/giterop/util.py, src/unfurl/job.py), together with
theorems settling the specification claims about it.
-/

namespace GitErOp

/-- Status from runtime.py: IntEnum "ok degraded error notapplied notpresent" (values 1..5). -/
inductive Status where
  | ok | degraded | error | notapplied | notpresent
deriving DecidableEq, Repr

/-- The IntEnum integer value of a status (members are numbered from 1). -/
def Status.val : Status → Nat
  | .ok => 1
  | .degraded => 2
  | .error => 3
  | .notapplied => 4
  | .notpresent => 5

/-- Priority from runtime.py: IntEnum "ignore optional required". -/
inductive Priority where
  | ignore | optional | required
deriving DecidableEq, Repr

/-- Action from runtime.py: IntEnum "discover instantiate revert". -/
inductive Action where
  | discover | instantiate | revert
deriving DecidableEq, Repr

/-- An operational dependency as consumed by Operational.aggregateStatus: the loop reads
only the priority and the (computed) status property of each element, so a dependency is
modelled by the values of those two properties. -/
structure Dep where
  priority : Priority
  status : Status
deriving DecidableEq, Repr

/-- Operational.operational: self.status == Status.ok or self.status == Status.degraded. -/
def Dep.operational (d : Dep) : Bool :=
  d.status == .ok || d.status == .degraded

/-- Operational.required: self.priority == Priority.required. -/
def Dep.required (d : Dep) : Bool :=
  d.priority == .required

/-- The loop of Operational.aggregateStatus with its accumulator state: skip dependencies
with priority ignore; a required dependency that is not operational breaks with error; a
required degraded dependency, or a non-required non-operational one, lowers the state to
degraded. -/
def aggregateLoop : List Dep → Status → Status
  | [], state => state
  | d :: rest, state =>
    if d.priority == .ignore then aggregateLoop rest state
    else if d.required then
      if !d.operational then Status.error
      else if d.status == .degraded then aggregateLoop rest .degraded
      else aggregateLoop rest state
    else if !d.operational then aggregateLoop rest .degraded
    else aggregateLoop rest state

/-- Operational.aggregateStatus(statuses, defaultStatus=Status.ok) from runtime.py. -/
def aggregateStatus (statuses : List Dep) (defaultStatus : Status := .ok) : Status :=
  aggregateLoop statuses defaultStatus

/-- C1: Operational.aggregateStatus (with operational meaning status is ok or degraded)
returns error if, scanning the dependencies in declaration order and skipping those whose
priority is ignore, it reaches a required dependency that is not operational
(short-circuiting there, so: whenever such a dependency exists); otherwise degraded if some
non-ignored dependency is either required with status degraded or non-required and not
operational; otherwise the given default status. -/
theorem aggregateStatus_spec (deps : List Dep) (defaultStatus : Status) :
    aggregateStatus deps defaultStatus =
      (if deps.any fun d => d.priority != .ignore && (d.required && !d.operational) then
        Status.error
      else if deps.any fun d => d.priority != .ignore &&
          (d.required && d.status == .degraded || !d.required && !d.operational) then
        Status.degraded
      else defaultStatus) := by
  induction deps generalizing defaultStatus with
  | nil => rfl
  | cons d rest ih =>
    rcases d with ⟨p, s⟩
    cases p <;> cases s <;>
      simp_all [aggregateStatus, aggregateLoop, Dep.required, Dep.operational]

/-- An Operational entity as read by the status property: its manual override, its computed
status and its operational dependencies. -/
structure OperationalM where
  manualOverideStatus : Option Status
  computedStatus : Status
  dependencies : List Dep
deriving DecidableEq, Repr

/-- The Operational.status property from runtime.py: take the manual override when it is
set, else the computed status; return it directly when status >= Status.error (an IntEnum
comparison, hence also for notapplied and notpresent); otherwise aggregate over the
operational dependencies with it as the default. -/
def statusProperty (o : OperationalM) : Status :=
  let status :=
    match o.manualOverideStatus with
    | some s => s
    | none => o.computedStatus
  if Status.val .error ≤ Status.val status then status
  else aggregateStatus o.dependencies status

/-- C3 counterexample: a manual override of notapplied (which is not the terminal error
status) together with a required dependency in error.  The status property returns the
override without aggregating over the dependencies, while the aggregation the claim calls
for would have returned error. -/
theorem status_override_notapplied_skips_aggregation :
    statusProperty ⟨some .notapplied, .ok, [⟨.required, .error⟩]⟩ = .notapplied ∧
    aggregateStatus [⟨.required, .error⟩] .notapplied = .error ∧
    Status.notapplied ≠ .error := by decide

/-- C3 (amended): when the manual override is set it replaces the computed local status;
the result is fed into aggregation over the operational dependencies only when it is ok or
degraded, while any status at or above error in the IntEnum order (error, notapplied or
notpresent, whether manual or computed) is returned directly, suppressing the aggregation. -/
theorem status_override_spec (o : OperationalM) (s : Status)
    (h : o.manualOverideStatus = some s) :
    ((s = .ok ∨ s = .degraded) → statusProperty o = aggregateStatus o.dependencies s) ∧
    ((s = .error ∨ s = .notapplied ∨ s = .notpresent) → statusProperty o = s) := by
  cases s <;> simp [statusProperty, h, Status.val]

/-- C3 witness: the amended claim evaluated at concrete inputs, one per arm. -/
theorem status_override_spec_holds :
    statusProperty ⟨some .degraded, .ok, [⟨.optional, .error⟩]⟩ =
      aggregateStatus [⟨.optional, .error⟩] .degraded ∧
    statusProperty ⟨some .notapplied, .ok, [⟨.required, .error⟩]⟩ = .notapplied :=
  ⟨(status_override_spec ⟨some .degraded, .ok, [⟨.optional, .error⟩]⟩ .degraded rfl).1
      (Or.inr rfl),
   (status_override_spec ⟨some .notapplied, .ok, [⟨.required, .error⟩]⟩ .notapplied rfl).2
      (Or.inr (Or.inl rfl))⟩

/-- ConfigurationSpec from runtime.py, with exactly the six fields its __eq__ compares
(name, target, className, majorVersion, minorVersion, intent); structural equality of this
record therefore coincides with the source's ==. -/
structure ConfigurationSpec where
  name : String
  target : String
  className : String
  majorVersion : Nat
  minorVersion : String
  intent : Action
deriving DecidableEq, Repr

/-- A Configuration (the lastChange argument of Job.includeTask) as the planner reads it:
its spec, the value of its status property, and its parameters field (set by
refreshParameters, None before the first run). -/
structure Configuration where
  configurationSpec : ConfigurationSpec
  status : Status
  parameters : Option (List (String × String))
deriving DecidableEq, Repr

/-- Configuration.hasParametersChanged: parameters is not None and
configurationSpec.resolveParameters(self) != parameters.  ConfigurationSpec's
resolveParameters returns the empty dict (no override exists in the source), so this is
"parameters is set and non-empty". -/
def Configuration.hasParametersChanged (c : Configuration) : Bool :=
  match c.parameters with
  | none => false
  | some p => !(p == [])

/-- The repair job option: "error" (the default), "degraded", or unset (None, as used for
child jobs). -/
inductive Repair where
  | rerror | rdegraded | unset
deriving DecidableEq, Repr

/-- The JobOptions fields consulted by Job.includeTask and Job.checkForRepair. -/
structure JobOptionsM where
  all : Bool
  add : Bool
  update : Bool
  upgrade : Bool
  revertObsolete : Bool
  repair : Repair
deriving DecidableEq, Repr

/-- Job.checkForRepair(lastChange) from runtime.py: re-run the old spec when its parameters
changed and update is set; skip when the status is ok or repair is unset; with
repair="degraded" repair anything else; with repair="error" skip degraded and repair the
rest.  (The asserts on the repair value hold for every value of the Repair type.) -/
def checkForRepair (o : JobOptionsM) (lastChange : Configuration) :
    Option ConfigurationSpec :=
  let spec := lastChange.configurationSpec
  if lastChange.hasParametersChanged && o.update then some spec
  else if lastChange.status == .ok || o.repair == .unset then none
  else if o.repair == .rdegraded then some spec
  else if lastChange.status == .degraded then none
  else some spec

/-- Job.includeTask(config, lastChange) from runtime.py.  config is the wanted spec (None
for an orphaned configuration), lastChange the last applied configuration (None for a new
spec).  The branch for both present and spec != config contains the line
  if config.intent != A.revert and spec.majorVersion != config.majorVersion: return config
guarded by self.update, which selects the new spec only when the major versions DIFFER.
The source's assert rules out the (None, None) case; it is modelled as None. -/
def includeTask (o : JobOptionsM) (config : Option ConfigurationSpec)
    (lastChange : Option Configuration) : Option ConfigurationSpec :=
  if o.all && config.isSome then config
  else
    match config, lastChange with
    | some c, none => if o.add then some c else none
    | none, some lc =>
      let spec := lc.configurationSpec
      if o.revertObsolete then some { spec with intent := .revert }
      else if o.all then some spec
      else checkForRepair o lc
    | some c, some lc =>
      let spec := lc.configurationSpec
      if spec ≠ c then
        if c.intent == .revert && lc.status == .notpresent then none
        else if o.upgrade then some c
        else if lc.status == .notpresent && spec.intent ≠ c.intent && o.add then some c
        else if o.update && (c.intent ≠ .revert && spec.majorVersion ≠ c.majorVersion) then
          some c
        else checkForRepair o lc
      else checkForRepair o lc
    | none, none => none

/-- C2: the code contradicts the claim (and its own comment "apply the new configuration
unless it will trigger a major version change").  With a stored change whose spec differs
from the new spec only in minorVersion (so the major versions are equal), upgrade false,
update true and intent instantiate, includeTask does not select the new configuration: the
update branch fires only when the major versions differ, so the call falls through to
checkForRepair, which returns None for an ok status. -/
theorem includeTask_update_no_major_bump_returns_none :
    includeTask ⟨false, true, true, false, false, .rerror⟩
      (some ⟨"c", "r", "K", 1, "2", .instantiate⟩)
      (some ⟨⟨"c", "r", "K", 1, "1", .instantiate⟩, .ok, none⟩) = none ∧
    (⟨"c", "r", "K", 1, "1", .instantiate⟩ : ConfigurationSpec) ≠
      ⟨"c", "r", "K", 1, "2", .instantiate⟩ := by decide

/-- The JobOptions fields consulted by Job.filterConfig in runtime.py. -/
structure FilterOptionsM where
  readOnly : Bool
  requiredOnly : Bool
  resource : Option String
  configuration : Option String
deriving DecidableEq, Repr

/-- Models the Python comparison config.intent == 'discover' in Job.filterConfig:
config.intent is an Action IntEnum member and an IntEnum member never equals a str, so the
comparison is False for every intent, including Action.discover. -/
def actionEqStrDiscover (_ : Action) : Bool := false

/-- Errors raised by the embedded Python code. -/
inductive PyErr where
  | attributeError
  | nameError
  | assertionError
  | gitErOpError (msg : String)
  | fuel
deriving DecidableEq, Repr

/-- Job.filterConfig(config) from runtime.py.  Note that when requiredOnly is set the
source evaluates config.required, an attribute ConfigurationSpec does not define, raising
AttributeError; the readOnly test precedes it. -/
def filterConfig (o : FilterOptionsM) (config : ConfigurationSpec) :
    Except PyErr (Option ConfigurationSpec) :=
  if o.readOnly && !actionEqStrDiscover config.intent then .ok none
  else if o.requiredOnly then .error .attributeError
  else if (match o.resource with | some r => config.target != r | none => false) then
    .ok none
  else if (match o.configuration with | some n => config.name != n | none => false) then
    .ok none
  else .ok (some config)

/-- C7: the code contradicts the claim.  With readOnly set, filterConfig drops every
configuration — including one whose intent is Action.discover — because the source compares
the Action IntEnum against the string 'discover', which is always unequal in Python. -/
theorem filterConfig_readonly_drops_discover :
    filterConfig ⟨true, false, none, none⟩ ⟨"c", "r", "K", 1, "", .discover⟩ = .ok none ∧
    (∀ intent : Action,
      filterConfig ⟨true, false, none, none⟩ ⟨"c", "r", "K", 1, "", intent⟩ = .ok none) := by
  constructor
  · rfl
  · intro intent; rfl

/-- Python dict get on an insertion-ordered association list. -/
def alGet {α : Type} : List (String × α) → String → Option α
  | [], _ => none
  | (k, v) :: rest, key => if k == key then some v else alGet rest key

/-- Python dict assignment: replace the value in place if the key exists, else append. -/
def alSet {α : Type} : List (String × α) → String → α → List (String × α)
  | [], key, v => [(key, v)]
  | (k, w) :: rest, key, v =>
    if k == key then (k, v) :: rest else (k, w) :: alSet rest key v

/-- Python dict.pop(key, None): drop the entry if present. -/
def alRemove {α : Type} : List (String × α) → String → List (String × α)
  | [], _ => []
  | (k, v) :: rest, key => if k == key then rest else (k, v) :: alRemove rest key

/-- A value yielded by a configurator's run generator, as dispatched on by Job.runTask in
runtime.py: a sub-Task (carrying the values its own generator will yield), a sub-Job, a
terminal Status, an exception raised inside the generator, or any other value. -/
inductive YieldV where
  | task (sub : List YieldV)
  | job
  | status (s : Status)
  | raised
  | other

/-- What Job.runTask did to the task: the status passed to task.finished, whether
generator.close() was called, and whether a GitErOpTaskError was recorded on the task. -/
structure RunOutcome where
  result : Status
  closed : Bool
  errorRecorded : Bool
deriving DecidableEq, Repr

/-- The generator-driving loop of Job.runTask in runtime.py, over the sequence of values
the configurator's generator yields in a run.  A Task is run recursively and the loop
continues; a Job is run and the loop continues; a Status closes the generator and finishes
the task with it; an exception in send (including StopIteration when the generator is
exhausted) is caught, the generator closed, a task error recorded, and the task finished
with error; any other value closes the generator, records a task error, and finishes the
task with error. -/
def runTaskDrive : List YieldV → RunOutcome
  | [] => ⟨.error, true, true⟩
  | .task sub :: rest =>
    let _ := runTaskDrive sub
    runTaskDrive rest
  | .job :: rest => runTaskDrive rest
  | .status s :: _ => ⟨s, true, false⟩
  | .raised :: _ => ⟨.error, true, true⟩
  | .other :: _ => ⟨.error, true, true⟩

/-- Whether a yielded value is a sub-request the loop keeps driving past (a Task or Job). -/
def YieldV.isSubRequest : YieldV → Bool
  | .task _ => true
  | .job => true
  | _ => false

/-- C6: whenever the configurator's generator yields a value that is not a sub-task, a
sub-job, or a terminal Status — after any number of sub-task/sub-job resumptions — the
runner closes the generator, records a task error, and finishes the task with status
error, independently of anything the generator would have yielded afterwards. -/
theorem runTask_protocol_error (pre rest : List YieldV)
    (h : pre.all YieldV.isSubRequest = true) :
    runTaskDrive (pre ++ .other :: rest) = ⟨Status.error, true, true⟩ := by
  induction pre with
  | nil => simp [runTaskDrive]
  | cons v pre ih => cases v <;> simp_all [runTaskDrive, YieldV.isSubRequest]

/-- C6 witness: a run that yields a sub-job, then a stray value, then would have yielded ok. -/
theorem runTask_protocol_error_at :
    runTaskDrive ([.job] ++ .other :: [.status .ok]) = ⟨Status.error, true, true⟩ :=
  runTask_protocol_error [.job] [.status .ok] rfl

/-- The JobOptions fields read by unfurl/job.py's Job.filterConfig. -/
structure UJobOptions where
  readonly : Bool
  requiredOnly : Bool
  resource : Option String
  resources : Option (List String)
deriving DecidableEq, Repr

/-- A configuration spec as unfurl/job.py's candidate loop reads it (duck-typed fields:
name, action, intent, required). -/
structure UConfigSpec where
  name : String
  action : String
  intent : String
  required : Bool
deriving DecidableEq, Repr

/-- unfurl Job.filterConfig(config, target): the config together with None, or None with
the reason it was dropped. -/
def unfurlFilterConfig (o : UJobOptions) (config : UConfigSpec) (targetName : String) :
    Option UConfigSpec × Option String :=
  if o.readonly && config.intent != "discover" then (none, some "read only")
  else if o.requiredOnly && !config.required then (none, some "required")
  else if (match o.resource with | some r => targetName != r | none => false) then
    (none, some "resource")
  else if (match o.resources with | some rs => !rs.contains targetName | none => false) then
    (none, some "resources")
  else (some config, none)

/-- A task as keyed into workDone by unfurl Runner.addWork. -/
structure UTask where
  target : String
  configSpec : UConfigSpec
  changeId : Nat
deriving DecidableEq, Repr

/-- The workDone key built by unfurl Runner.addWork:
"target:configName:action:changeId". -/
def uWorkKey (t : UTask) : String :=
  t.target ++ ":" ++ t.configSpec.name ++ ":" ++ t.configSpec.action ++ ":"
    ++ toString t.changeId

/-- unfurl Runner.isConfigAlreadyHandled: the source body is
  return False  # XXX
with the real check (configSpec.name in self.currentJob.workDone) commented out, so no
configuration is ever reported as already handled, whatever workDone holds. -/
def unfurlIsConfigAlreadyHandled (_workDone : List (String × UTask))
    (_configSpec : UConfigSpec) : Bool :=
  false

/-- unfurl Job.getCandidateTasks interleaved with run()'s addWork: walk the plan's
(configSpec, target) stream, skip what filterConfig rejects or isConfigAlreadyHandled
reports as handled, create a ConfigTask (whose changeId starts as the job's changeId) for
the rest and record it in workDone under uWorkKey. -/
def unfurlCandidates (o : UJobOptions) (jobChangeId : Nat) :
    List (String × UTask) → List (UConfigSpec × String) → List UTask
  | _, [] => []
  | workDone, (cs, target) :: rest =>
    match (unfurlFilterConfig o cs target).1 with
    | none => unfurlCandidates o jobChangeId workDone rest
    | some cs' =>
      if unfurlIsConfigAlreadyHandled workDone cs' then
        unfurlCandidates o jobChangeId workDone rest
      else
        let t : UTask := ⟨target, cs', jobChangeId⟩
        t :: unfurlCandidates o jobChangeId (alSet workDone (uWorkKey t) t) rest

/-- C5: the unfurl runner contradicts the claim.  With default options, a plan that yields
the same (configSpec, target) pair twice, and a workDone that already records a task for
that pair, isConfigAlreadyHandled still returns False, so the duplicate candidate is not
skipped and a second task is created for the same pair. -/
theorem unfurl_duplicate_candidate_not_skipped :
    unfurlIsConfigAlreadyHandled
      [(uWorkKey ⟨"r", ⟨"c", "configure", "deploy", true⟩, 1⟩,
        ⟨"r", ⟨"c", "configure", "deploy", true⟩, 1⟩)]
      ⟨"c", "configure", "deploy", true⟩ = false ∧
    unfurlCandidates ⟨false, false, none, none⟩ 1
      [(uWorkKey ⟨"r", ⟨"c", "configure", "deploy", true⟩, 1⟩,
        ⟨"r", ⟨"c", "configure", "deploy", true⟩, 1⟩)]
      [(⟨"c", "configure", "deploy", true⟩, "r"), (⟨"c", "configure", "deploy", true⟩, "r")]
      = [⟨"r", ⟨"c", "configure", "deploy", true⟩, 1⟩,
         ⟨"r", ⟨"c", "configure", "deploy", true⟩, 1⟩] := by
  constructor
  · rfl
  · rfl

/-- A resource's attribute map (Resource.attributes). -/
abbrev Attrs := List (String × String)

/-- The heap of resources reached through Task.updateResources, keyed by resource name:
each resource's current attributes. -/
abbrev Store := String → Attrs

/-- Assignment resource.attributes = value for the named resource. -/
def storeSet (st : Store) (n : String) (a : Attrs) : Store :=
  fun m => if m = n then a else st m

/-- A Configuration as Task.finished and Resource.setConfiguration read it: its name, its
computedStatus, its intent and its operational dependencies (its status property is
computed from the last two exactly as in Operational.status). -/
structure ConfigR where
  name : String
  computedStatus : Status
  intent : Action
  dependencies : List Dep
deriving DecidableEq, Repr

/-- The status property of a configuration (an OperationalInstance has no manual
override unless one was loaded). -/
def ConfigR.statusP (c : ConfigR) : Status :=
  statusProperty ⟨none, c.computedStatus, c.dependencies⟩

/-- The two configuration dicts of a Resource. -/
structure ResState where
  configurations : List (String × ConfigR)
  excludedConfigurations : List (String × ConfigR)
deriving DecidableEq, Repr

/-- Resource.setConfiguration from runtime.py: a configuration whose status is notpresent
and whose intent is revert is moved to excludedConfigurations; otherwise it is stored in
configurations under its name. -/
def setConfiguration (r : ResState) (c : ConfigR) : ResState :=
  if c.statusP == .notpresent && c.intent == .revert then
    { configurations := alRemove r.configurations c.name,
      excludedConfigurations := alSet r.excludedConfigurations c.name c }
  else { r with configurations := alSet r.configurations c.name c }

/-- Task.updateResources: for each resource the task updated, the snapshot of its
attributes taken (copy.copy) at the task's first update of it. -/
structure TaskUpd where
  updateResources : List (String × Attrs)
deriving DecidableEq, Repr

/-- Python dict.update on an attribute map. -/
def dictUpdate (base upd : Attrs) : Attrs :=
  upd.foldl (fun b kv => alSet b kv.1 kv.2) base

/-- Popping the deleted keys from an attribute map. -/
def dictPopKeys (base : Attrs) (deleted : List String) : Attrs :=
  deleted.foldl alRemove base

/-- Task.updateResource(resource, updated, deleted) from runtime.py: record the pre-task
snapshot of the resource's attributes if this is the task's first update of it, then pop
the deleted keys and apply the updates. -/
def Task_updateResource (t : TaskUpd) (st : Store) (name : String) (updated : Attrs)
    (deleted : List String) : TaskUpd × Store :=
  let t : TaskUpd :=
    if (alGet t.updateResources name).isSome then t
    else ⟨t.updateResources ++ [(name, st name)]⟩
  (t, storeSet st name (dictUpdate (dictPopKeys (st name) deleted) updated))

/-- Task.revertChanges from runtime.py: restore every resource recorded in
self.updateResources to its recorded snapshot and clear the record.  (The source notes:
"N.B. this will revert any changes made by other tasks run at the same time which should
only be subtasks and jobs".) -/
def Task_revertChanges (t : TaskUpd) (st : Store) : TaskUpd × Store :=
  (⟨[]⟩, t.updateResources.foldl (fun s p => storeSet s p.1 p.2) st)

/-- The state Task.finished leaves behind: the task's currentConfiguration, its return
value (self.newConfiguration), the target resource's configuration dicts, the attribute
heap and the update record. -/
structure FinOut where
  currentConfiguration : ConfigR
  returned : ConfigR
  res : ResState
  store : Store
  upd : TaskUpd

/-- Task.finished(result) from runtime.py.  currentConfiguration (== newConfiguration at
this point) gets computedStatus = result.  If the result is notapplied and there was a
previous configuration, the previous configuration becomes current again and is set back
on the resource, the new one is recorded in excludedConfigurations, and the task's
attribute changes are reverted; with no previous configuration only the revert happens.
If the result is notpresent for a revert intent the new configuration is set (possibly
moving it to excludedConfigurations).  The function returns self.newConfiguration. -/
def Task_finished (old : Option ConfigR) (newC0 : ConfigR) (upd : TaskUpd)
    (r : ResState) (st : Store) (result : Status) : FinOut :=
  let newC := { newC0 with computedStatus := result }
  if result == .notapplied then
    match old with
    | some oldC =>
      let r := setConfiguration r oldC
      let r := { r with
        excludedConfigurations := alSet r.excludedConfigurations newC.name newC }
      let (upd, st) := Task_revertChanges upd st
      ⟨oldC, newC, r, st, upd⟩
    | none =>
      let (upd, st) := Task_revertChanges upd st
      ⟨newC, newC, r, st, upd⟩
  else if result == .notpresent && newC.intent == .revert then
    ⟨newC, newC, setConfiguration r newC, st, upd⟩
  else ⟨newC, newC, r, st, upd⟩

/-- C4 counterexample: the parent task updates resource R (snapshotting R's pre-task
attributes), a sub-task then updates R through its own record, and the parent finishes
notapplied.  The parent's revert restores R to the parent's snapshot, erasing the
sub-task's mutation — the claim said sub-task mutations are never reverted by the parent's
revert. -/
theorem subtask_mutation_reverted_by_parent :
    (let st0 : Store := fun n => if n = "R" then [("k", "0")] else []
     let p1 := Task_updateResource ⟨[]⟩ st0 "R" [("k", "1")] []
     let s1 := Task_updateResource ⟨[]⟩ p1.2 "R" [("k", "2")] []
     let out := Task_finished (some ⟨"c", .ok, .instantiate, []⟩)
       ⟨"c", .ok, .instantiate, []⟩ p1.1 ⟨[], []⟩ s1.2 .notapplied
     s1.2 "R" = [("k", "2")] ∧ out.store "R" = [("k", "0")] ∧
       ([("k", "0")] : Attrs) ≠ [("k", "2")]) := by
  decide

/-- Keys absent from an association list are not written by the revert fold. -/
theorem foldl_storeSet_of_not_recorded (l : List (String × Attrs)) (st : Store)
    (n : String) (h : alGet l n = none) :
    (l.foldl (fun s p => storeSet s p.1 p.2) st) n = st n := by
  induction l generalizing st with
  | nil => rfl
  | cons kv rest ih =>
    rcases kv with ⟨k, a⟩
    simp only [alGet] at h
    by_cases hk : k = n
    · simp [hk] at h
    · have hk' : (k == n) = false := by simp [hk]
      rw [hk'] at h
      simp only [List.foldl_cons]
      rw [ih _ h]
      simp [storeSet, Ne.symm hk]

/-- Unrecorded keys have no entry. -/
theorem alGet_eq_none_of_not_mem {α : Type} (l : List (String × α)) (n : String)
    (h : n ∉ l.map Prod.fst) : alGet l n = none := by
  induction l with
  | nil => rfl
  | cons kv rest ih =>
    rcases kv with ⟨k, a⟩
    simp only [List.map_cons, List.mem_cons] at h
    push_neg at h
    simp [alGet, Ne.symm h.1, ih h.2]

/-- With no duplicate keys, the revert fold writes each recorded key its snapshot. -/
theorem foldl_storeSet_of_recorded (l : List (String × Attrs)) (st : Store)
    (n : String) (a : Attrs) (hnd : (l.map Prod.fst).Nodup) (h : (n, a) ∈ l) :
    (l.foldl (fun s p => storeSet s p.1 p.2) st) n = a := by
  induction l generalizing st with
  | nil => simp at h
  | cons kv rest ih =>
    rcases kv with ⟨k, b⟩
    simp only [List.map_cons, List.nodup_cons] at hnd
    rcases List.mem_cons.mp h with heq | hmem
    · cases heq
      simp only [List.foldl_cons]
      rw [foldl_storeSet_of_not_recorded _ _ _ (alGet_eq_none_of_not_mem _ _ hnd.1)]
      simp [storeSet]
    · simp only [List.foldl_cons]
      exact ih (storeSet st k b) hnd.2 hmem

/-- Setting a key makes it readable. -/
theorem alGet_alSet_self {α : Type} (l : List (String × α)) (k : String) (v : α) :
    alGet (alSet l k v) k = some v := by
  induction l with
  | nil => simp [alSet, alGet]
  | cons kv rest ih =>
    rcases kv with ⟨k', w⟩
    by_cases hk : k' = k
    · simp [alSet, alGet, hk]
    · simp [alSet, alGet, hk, ih]

/-- C4 (amended): when a task with a previous configuration finishes notapplied, the
previous configuration is set back on the resource (provided it is not itself a
notpresent revert, which setConfiguration excludes), every resource recorded in the
task's own update set is restored to the snapshot taken at the task's first update of it,
and resources the task did not record keep their current attributes — so sub-task
mutations survive exactly on resources outside the parent's update set, while sub-task
mutations made to a recorded resource after the parent's snapshot are reverted with it. -/
theorem task_finished_notapplied_spec (oldC newC : ConfigR) (upd : TaskUpd)
    (r : ResState) (st : Store)
    (hold : (oldC.statusP == .notpresent && oldC.intent == .revert) = false)
    (hnd : (upd.updateResources.map Prod.fst).Nodup) :
    (Task_finished (some oldC) newC upd r st .notapplied).currentConfiguration = oldC ∧
    alGet (Task_finished (some oldC) newC upd r st .notapplied).res.configurations
      oldC.name = some oldC ∧
    (∀ n a, (n, a) ∈ upd.updateResources →
      (Task_finished (some oldC) newC upd r st .notapplied).store n = a) ∧
    (∀ n, alGet upd.updateResources n = none →
      (Task_finished (some oldC) newC upd r st .notapplied).store n = st n) := by
  refine ⟨?_, ?_, ?_, ?_⟩
  · simp [Task_finished, Task_revertChanges]
  · simp only [Task_finished, Task_revertChanges, setConfiguration, hold,
      Bool.false_eq_true, if_false]
    exact alGet_alSet_self _ _ _
  · intro n a hmem
    simp only [Task_finished, Task_revertChanges]
    exact foldl_storeSet_of_recorded _ _ _ _ hnd hmem
  · intro n hn
    simp only [Task_finished, Task_revertChanges]
    exact foldl_storeSet_of_not_recorded _ _ _ hn

/-- C4 witness: the amended claim evaluated on a concrete task whose update set records R
with snapshot k=0, over a store where R currently has k=2 (a sub-task's write) and X has
k=9 (untouched by the parent). -/
theorem task_finished_notapplied_spec_at :
    alGet (Task_finished (some ⟨"c", .ok, .instantiate, []⟩) ⟨"c", .ok, .instantiate, []⟩
        ⟨[("R", [("k", "0")])]⟩ ⟨[], []⟩
        (fun n => if n = "R" then [("k", "2")] else [("k", "9")]) .notapplied).res.configurations
        "c" = some ⟨"c", .ok, .instantiate, []⟩ ∧
    (Task_finished (some ⟨"c", .ok, .instantiate, []⟩) ⟨"c", .ok, .instantiate, []⟩
        ⟨[("R", [("k", "0")])]⟩ ⟨[], []⟩
        (fun n => if n = "R" then [("k", "2")] else [("k", "9")]) .notapplied).store "R"
      = [("k", "0")] ∧
    (Task_finished (some ⟨"c", .ok, .instantiate, []⟩) ⟨"c", .ok, .instantiate, []⟩
        ⟨[("R", [("k", "0")])]⟩ ⟨[], []⟩
        (fun n => if n = "R" then [("k", "2")] else [("k", "9")]) .notapplied).store "X"
      = [("k", "9")] := by
  have h := task_finished_notapplied_spec ⟨"c", .ok, .instantiate, []⟩
    ⟨"c", .ok, .instantiate, []⟩ ⟨[("R", [("k", "0")])]⟩ ⟨[], []⟩
    (fun n => if n = "R" then [("k", "2")] else [("k", "9")]) (by decide) (by decide)
  exact ⟨h.2.1, h.2.2.1 "R" [("k", "0")] (by decide), h.2.2.2 "X" (by decide)⟩

/-- The attribute slots of a Resource object during __init__: Python objects acquire
attributes one assignment at a time, so each slot is None until its assignment runs,
and reading an unassigned slot raises AttributeError. -/
structure ResInitFields where
  name : Option String
  attributes : Option Attrs
  configurations : Option (List (String × ConfigR))
  excludedConfigurations : Option (List (String × ConfigR))
  container : Option (Option String)
  resources : Option (List String)
deriving Repr

/-- Resource.__init__(name, attributes, configurations, parent, children) from runtime.py,
executed assignment by assignment.  With a parent (any non-None parent object is truthy),
the statement self.resources.append(self) runs before self.resources has been assigned,
so it reads an unset attribute and raises AttributeError; were it reachable, it would
append the child to its own resources list, not the parent's, and the following
assignment self.resources = children or [] would overwrite it anyway.  Parent and
children are referenced by resource name. -/
def Resource_init (name : String) (attributes : Option Attrs)
    (configurations : Option (List ConfigR)) (parent : Option String)
    (children : Option (List String)) : Except PyErr ResInitFields :=
  let o : ResInitFields := ⟨none, none, none, none, none, none⟩
  let o := { o with name := some name }
  let o := { o with attributes := some (attributes.getD []) }
  let o := { o with
    configurations := some ((configurations.getD []).map fun c : ConfigR => (c.name, c)) }
  let o := { o with excludedConfigurations := some ([] : List (String × ConfigR)) }
  let o := { o with container := some parent }
  if parent.isSome then
    match o.resources with
    | none => .error .attributeError
    | some rs =>
      let o := { o with resources := some (rs ++ [name]) }
      .ok { o with resources := some (children.getD []) }
  else
    .ok { o with resources := some (children.getD []) }

/-- A resource as Resource.findResource walks it: its name and its direct children
(self.resources).  The container back-pointer is not consulted by findResource. -/
inductive Res where
  | node : String → List Res → Res
deriving Repr

/-- The resource's name. -/
def Res.name : Res → String
  | .node n _ => n

/-- The resource's direct children (self.resources). -/
def Res.children : Res → List Res
  | .node _ cs => cs

/-- Resource.findResource(resourceid) from runtime.py: return self when the name matches;
otherwise loop over the direct children and, on the first child whose name matches,
execute "return match" — the name match is undefined in that scope (and in the module),
raising NameError; with no matching child return None.  No recursion happens, so anything
only present at depth two or more is never found. -/
def findResource (r : Res) (resourceid : String) : Except PyErr (Option Res) :=
  if r.name == resourceid then .ok (some r)
  else if r.children.any fun c => c.name == resourceid then .error .nameError
  else .ok none

/-- Manifest.createResource(templateName, name, attributes, parent, configurationSpecs)
from runtime.py: assert name is truthy, assert the name is not already taken (running
findResource, which itself can raise NameError), then construct
Resource(name, attributes, parent=parent or self.getRootResource()) — the parent argument
passed to Resource is therefore never None. -/
def createResource (root : Res) (name : String) (attributes : Option Attrs)
    (parent : Option String) : Except PyErr ResInitFields :=
  if name == "" then .error .assertionError
  else
    match findResource root name with
    | .error e => .error e
    | .ok (some _) => .error .assertionError
    | .ok none => Resource_init name attributes none (some (parent.getD root.name)) none

/-- C9: constructing a Resource with any non-None parent raises AttributeError, because
self.resources.append(self) runs before self.resources is assigned (and would append to
the child's own list, not the parent's); consequently Manifest.createResource, which
always passes a parent, never returns normally, so a created resource is never linked
into its parent's children. -/
theorem resource_init_with_parent_raises (p name : String) (attributes : Option Attrs)
    (configurations : Option (List ConfigR)) (children : Option (List String))
    (root : Res) (cname : String) (cattrs : Option Attrs) (cparent : Option String) :
    Resource_init name attributes configurations (some p) children =
      .error .attributeError ∧
    ∃ e : PyErr, createResource root cname cattrs cparent = .error e := by
  constructor
  · rfl
  · by_cases h : cname = ""
    · exact ⟨.assertionError, by simp [createResource, h]⟩
    · match hf : findResource root cname with
      | .error e => exact ⟨e, by simp [createResource, h, hf]⟩
      | .ok (some r) => exact ⟨.assertionError, by simp [createResource, h, hf]⟩
      | .ok none => exact ⟨.attributeError, by simp [createResource, h, hf, Resource_init]⟩

/-- C9 witness: a concrete construction with a parent and a concrete createResource call. -/
theorem resource_init_with_parent_raises_at :
    Resource_init "r" none none (some "root") none = .error .attributeError ∧
    ∃ e : PyErr, createResource (.node "root" []) "r" none none = .error e :=
  resource_init_with_parent_raises "root" "r" none none none (.node "root" []) "r" none none

/-- C10: findResource inspects only the resource itself and its direct children: it
returns the resource itself on a name match; it raises NameError (the undefined variable
match) whenever the name misses but some direct child's name matches; and whenever
neither the resource nor any direct child matches it returns None — regardless of any
deeper descendants, so a resource that exists only at depth two or more is never found. -/
theorem findResource_spec (r : Res) (resourceid : String) :
    (r.name = resourceid → findResource r resourceid = .ok (some r)) ∧
    (r.name ≠ resourceid → (∃ c ∈ r.children, c.name = resourceid) →
      findResource r resourceid = .error .nameError) ∧
    (r.name ≠ resourceid → (∀ c ∈ r.children, c.name ≠ resourceid) →
      findResource r resourceid = .ok none) := by
  refine ⟨fun h => ?_, fun h hc => ?_, fun h hc => ?_⟩
  · simp [findResource, h]
  · rcases hc with ⟨c, hc, hcn⟩
    simp only [findResource, beq_iff_eq, h, if_false]
    rw [if_pos]
    exact List.any_eq_true.mpr ⟨c, hc, by simp [hcn]⟩
  · simp only [findResource, beq_iff_eq, h, if_false]
    rw [if_neg]
    intro hany
    rcases List.any_eq_true.mp hany with ⟨c, hcmem, hcn⟩
    exact hc c hcmem (by simpa using hcn)

/-- C10 witness: in the tree a → b → c, looking up "c" from the root returns None (it
lives at depth two), and looking up "b" raises NameError (a direct child matches). -/
theorem findResource_spec_at :
    findResource (.node "a" [.node "b" [.node "c" []]]) "c" = .ok none ∧
    findResource (.node "a" [.node "b" [.node "c" []]]) "b" = .error .nameError :=
  ⟨(findResource_spec (.node "a" [.node "b" [.node "c" []]]) "c").2.2 (by decide)
      (by decide),
   (findResource_spec (.node "a" [.node "b" [.node "c" []]]) "b").2.1 (by decide)
      ⟨.node "b" [.node "c" []], by simp [Res.children], rfl⟩⟩

/-- A YAML/JSON document value as processed by util.py's merge/expand layer. -/
inductive Val where
  | str : String → Val
  | int : Int → Val
  | boolean : Bool → Val
  | null : Val
  | map : List (String × Val) → Val
  | list : List Val → Val

/-- A segment of a document path: a map key or a list index (expandList records integer
indices into paths). -/
inductive Seg where
  | key : String → Seg
  | idx : Nat → Seg
deriving DecidableEq, Repr

/-- The include sites recorded by expansion, in insertion order: the path of the inclusion
point together with the (directive key, directive value) pair. -/
abbrev Includes := List (List Seg × (String × Val))

/-- mergeStrategyKey = '+%' from util.py. -/
def mergeStrategyKey : String := "+%"

/-- Whether the second character list starts the first. -/
def listStartsWith : List Char → List Char → Bool
  | _, [] => true
  | [], _ :: _ => false
  | c :: cs, p :: ps => c == p && listStartsWith cs ps

/-- Python str.startswith over the characters of the strings. -/
def strStartsWith (s pre : String) : Bool :=
  listStartsWith s.data pre.data

/-- Python slicing s[n:] over the characters of the string. -/
def strDrop (s : String) (n : Nat) : String :=
  String.mk (s.data.drop n)

/-- The accumulator loop of str.split('/'). -/
def splitSlashAux : List Char → List Char → List String
  | [], acc => [String.mk acc.reverse]
  | c :: rest, acc =>
    if c == '/' then String.mk acc.reverse :: splitSlashAux rest []
    else splitSlashAux rest (c :: acc)

/-- Python key.split('/'). -/
def strSplitSlash (s : String) : List String :=
  splitSlashAux s.data []

/-- Python truthiness of a document value. -/
def pyTruthy : Val → Bool
  | .str s => !(s == "")
  | .int n => !(n == 0)
  | .boolean b => b
  | .null => false
  | .map m => !m.isEmpty
  | .list l => !l.isEmpty

/-- The Python comparison value == 'somestring': only a str can equal a str. -/
def valIsStrEq (v : Val) (s : String) : Bool :=
  match v with
  | .str t => t == s
  | _ => false

/-- lookupPath(doc, path) from util.py: walk the path; any segment that is not a key of a
map at that point (including every integer index) yields None. -/
def lookupPathV : Val → List Seg → Option Val
  | doc, [] => some doc
  | doc, seg :: rest =>
    match doc, seg with
    | .map m, .key s =>
      (match alGet m s with
       | some v => lookupPathV v rest
       | none => none)
    | _, _ => none

/-- The length of the common prefix of two paths (itertools.takewhile over zip in
getTemplate's recursion check). -/
def commonLen : List Seg → List Seg → Nat
  | a :: as, b :: bs => if a == b then commonLen as bs + 1 else 0
  | _, _ => 0

mutual

/-- mergeDicts(b, a) from util.py: a new map that recursively merges b into a (b is the
base, a overrides), driven by the '+%' merge-strategy key.  Fuel models Python's
recursion limit. -/
def mergeDicts (fuel : Nat) (b a : List (String × Val)) :
    Except PyErr (List (String × Val)) :=
  match fuel with
  | 0 => .error .fuel
  | fuel + 1 => do
    let (cp, skip) ← mergeLoop fuel b a [] []
    .ok (b.foldl (fun cp kv =>
      if kv.1 == mergeStrategyKey then cp
      else if (alGet cp kv.1).isSome || skip.contains kv.1 then cp
      else cp ++ [kv]) cp)

/-- The first loop of mergeDicts over the items of a, carrying cp and skip.  For a map
value the strategy comes from its '+%' entry, defaulted (when falsy or missing and the
base value is a map) from the base's '+%' entry, then 'merge'; merge recurses, error
raises, delete skips the key, anything else (and every non-map value) lets a override. -/
def mergeLoop (fuel : Nat) (b : List (String × Val)) (items : List (String × Val))
    (cp : List (String × Val)) (skip : List String) :
    Except PyErr (List (String × Val) × List String) :=
  match fuel with
  | 0 => .error .fuel
  | fuel + 1 =>
    match items with
    | [] => .ok (cp, skip)
    | (key, val) :: rest =>
      if key == mergeStrategyKey then mergeLoop fuel b rest cp skip
      else
        match val with
        | .map m =>
          let strategy0 := alGet m mergeStrategyKey
          (match alGet b key with
           | some (.map bm) =>
             let strategy : Val :=
               match strategy0 with
               | some s =>
                 if pyTruthy s then s else (alGet bm mergeStrategyKey).getD (.str "merge")
               | none => (alGet bm mergeStrategyKey).getD (.str "merge")
             if valIsStrEq strategy "merge" then do
               let merged ← mergeDicts fuel bm m
               mergeLoop fuel b rest (alSet cp key (.map merged)) skip
             else if valIsStrEq strategy "error" then
               .error (.gitErOpError "merging is not allowed, merge strategy error was set")
             else if valIsStrEq strategy "delete" then
               mergeLoop fuel b rest cp (skip ++ [key])
             else mergeLoop fuel b rest (alSet cp key val) skip
           | _ =>
             (match strategy0 with
              | some s =>
                if valIsStrEq s "delete" then mergeLoop fuel b rest cp (skip ++ [key])
                else mergeLoop fuel b rest (alSet cp key val) skip
              | none => mergeLoop fuel b rest (alSet cp key val) skip))
        | _ => mergeLoop fuel b rest (alSet cp key val) skip

end

/-- The two ways expandDict's item loop can end: the whole map replaced by an included
non-map value, or the built copy together with the collected include templates. -/
inductive ExpandOut where
  | replaced : Val → Includes → ExpandOut
  | built : List (String × Val) → List (List (String × Val)) → Includes → ExpandOut

mutual

/-- getTemplate(doc, key, value, path) from util.py: resolve the '/'-separated key in the
document ('..' segments back up the inclusion path), then — unless the directive's value
is 'raw' — expand a map result (with a fresh includes record, discarded), first raising a
recursion error when the inclusion path extends the template's own path. -/
def getTemplate (fuel : Nat) (doc : Val) (key : String) (value : Val) (path : List Seg) :
    Except PyErr Val :=
  match fuel with
  | 0 => .error .fuel
  | fuel + 1 => do
    let (template, templatePath) ←
      getTemplateLoop fuel doc (strSplitSlash key) doc none path
    let templatePath := templatePath.getD ((strSplitSlash key).map Seg.key)
    if !valIsStrEq value "raw" then
      match template with
      | .map m =>
        if commonLen path templatePath == templatePath.length then
          .error (.gitErOpError "recursive include")
        else do
          let (t, _) ← expandDict fuel doc path [] m
          .ok t
      | _ => .ok template
    else .ok template

/-- The loop of getTemplate over the segments of the key: a '..' segment replaces the
current template by looking the truncated path up in the document; every segment must
then be a key of the current template (so '..' itself must literally be a key, as in the
source), and the template path is extended when it is being tracked. -/
def getTemplateLoop (fuel : Nat) (doc : Val) (segs : List String) (template : Val)
    (templatePath : Option (List Seg)) (path : List Seg) :
    Except PyErr (Val × Option (List Seg)) :=
  match fuel with
  | 0 => .error .fuel
  | fuel + 1 =>
    match segs with
    | [] => .ok (template, templatePath)
    | seg :: rest =>
      let (template, templatePath) :=
        if seg == ".." then
          let tp :=
            match templatePath with
            | none => path.dropLast
            | some tp => tp.dropLast
          ((lookupPathV doc tp).getD .null, some tp)
        else (template, templatePath)
      match template with
      | .map m =>
        (match alGet m seg with
         | some v =>
           getTemplateLoop fuel doc rest v (templatePath.map (· ++ [Seg.key seg])) path
         | none => .error (.gitErOpError "can not find key in document"))
      | _ => .error (.gitErOpError "can not find key in document")

/-- expandDict(doc, path, includes, current) from util.py: expand include directives in a
map.  Returns the expanded value (a non-map when an include replaced the whole map)
together with the updated include record. -/
def expandDict (fuel : Nat) (doc : Val) (path : List Seg) (includes : Includes)
    (current : List (String × Val)) : Except PyErr (Val × Includes) :=
  match fuel with
  | 0 => .error .fuel
  | fuel + 1 => do
    let out ← expandDictLoop fuel doc path current.length current includes [] []
    match out with
    | .replaced v inc => .ok (v, inc)
    | .built cp templates inc =>
      match templates with
      | [] => .ok (.map cp, inc)
      | t0 :: ts => do
        let merged ← mergeFold fuel t0 (ts ++ [cp])
        .ok (.map merged, inc)

/-- The final merge of expandDict: accum = templates.pop(0), templates.append(cp), then
left-fold mergeDicts over the rest. -/
def mergeFold (fuel : Nat) (accum : List (String × Val))
    (ts : List (List (String × Val))) : Except PyErr (List (String × Val)) :=
  match fuel with
  | 0 => .error .fuel
  | fuel + 1 =>
    match ts with
    | [] => .ok accum
    | t :: rest => do
      let accum ← mergeDicts fuel accum t
      mergeFold fuel accum rest

/-- The item loop of expandDict.  A key starting with '+' is either the merge-strategy
key (copied through) or an include directive: the named template is fetched; a map
template is collected for merging, while a non-map value replaces the whole current map
(an error when the map has other keys).  A key starting with 'q+' is the quote escape:
the source assigns cp[key[2:]] = value, dropping both the 'q' and the '+'.  Map and list
values are expanded recursively; everything else is copied. -/
def expandDictLoop (fuel : Nat) (doc : Val) (path : List Seg) (curLen : Nat)
    (items : List (String × Val)) (includes : Includes) (cp : List (String × Val))
    (templates : List (List (String × Val))) : Except PyErr ExpandOut :=
  match fuel with
  | 0 => .error .fuel
  | fuel + 1 =>
    match items with
    | [] => .ok (.built cp templates includes)
    | (key, value) :: rest =>
      if strStartsWith key "+" then
        if key == mergeStrategyKey then
          expandDictLoop fuel doc path curLen rest includes (alSet cp key value) templates
        else do
          let includes := includes ++ [(path, (key, value))]
          let template ← getTemplate fuel doc (strDrop key 1) value path
          match template with
          | .map m =>
            expandDictLoop fuel doc path curLen rest includes cp (templates ++ [m])
          | _ =>
            if curLen > 1 then .error (.gitErOpError "can not merge non-map value")
            else .ok (.replaced template includes)
      else if strStartsWith key "q+" then
        expandDictLoop fuel doc path curLen rest includes
          (alSet cp (strDrop key 2) value) templates
      else
        match value with
        | .map m => do
          let (v, includes) ← expandDict fuel doc (path ++ [.key key]) includes m
          expandDictLoop fuel doc path curLen rest includes (alSet cp key v) templates
        | .list l => do
          let (vs, includes) ← expandList fuel doc (path ++ [.key key]) includes l
          expandDictLoop fuel doc path curLen rest includes
            (alSet cp key (.list vs)) templates
        | _ =>
          expandDictLoop fuel doc path curLen rest includes (alSet cp key value) templates

/-- expandList(doc, path, includes, value) from util.py (the generator, materialized): a
string item starting with '+' is an include whose result is spliced item by item when it
is a list; a string item starting with 'q+' yields item[1:], preserving the leading '+';
a map item is expanded (a list result is spliced); anything else is yielded unchanged. -/
def expandList (fuel : Nat) (doc : Val) (path : List Seg) (includes : Includes)
    (items : List Val) : Except PyErr (List Val × Includes) :=
  match fuel with
  | 0 => .error .fuel
  | fuel + 1 => expandListLoop fuel doc path includes items 0

/-- The enumerated loop of expandList. -/
def expandListLoop (fuel : Nat) (doc : Val) (path : List Seg) (includes : Includes)
    (items : List Val) (i : Nat) : Except PyErr (List Val × Includes) :=
  match fuel with
  | 0 => .error .fuel
  | fuel + 1 =>
    match items with
    | [] => .ok ([], includes)
    | item :: rest =>
      match item with
      | .str s =>
        if strStartsWith s "+" then do
          let includes := includes ++ [(path ++ [.idx i], (s, .null))]
          let template ← getTemplate fuel doc (strDrop s 1) .null path
          let out := match template with | .list l => l | t => [t]
          let (vs, includes) ← expandListLoop fuel doc path includes rest (i + 1)
          .ok (out ++ vs, includes)
        else if strStartsWith s "q+" then do
          let (vs, includes) ← expandListLoop fuel doc path includes rest (i + 1)
          .ok (.str (strDrop s 1) :: vs, includes)
        else do
          let (vs, includes) ← expandListLoop fuel doc path includes rest (i + 1)
          .ok (.str s :: vs, includes)
      | .map m => do
        let (v, includes) ← expandDict fuel doc (path ++ [.idx i]) includes m
        let out := match v with | .list l => l | t => [t]
        let (vs, includes) ← expandListLoop fuel doc path includes rest (i + 1)
        .ok (out ++ vs, includes)
      | _ => do
        let (vs, includes) ← expandListLoop fuel doc path includes rest (i + 1)
        .ok (item :: vs, includes)

end

/-- expandDoc(doc) from util.py: expand the whole document with a fresh include record,
after checking it is a map. -/
def expandDoc (fuel : Nat) (doc : Val) : Except PyErr (Val × Includes) :=
  match doc with
  | .map m => expandDict fuel doc [] [] m
  | _ => .error (.gitErOpError "malformed YAML or JSON document")

/-- C8: the code contradicts the claim for map keys.  Expanding a document whose only key
is "q+foo": expandDict executes cp[key[2:]] = value, stripping both the 'q' and the '+',
so the emitted key is "foo", not "+foo".  expandList, by contrast, yields item[1:] for a
"q+" list item, preserving the '+'. -/
theorem expandDict_quote_escape_drops_plus :
    expandDoc 20 (.map [("q+foo", .str "v")]) = .ok (.map [("foo", .str "v")], []) ∧
    expandList 20 (.map []) [] [] [.str "q+a"] = .ok ([.str "+a"], []) := by
  constructor
  · rfl
  · rfl

end GitErOp
